import Mathlib

/-!
Verification of the scraper in scripts/scrape_molduras.py.

Shallow embedding conventions:
* Python strings are Lean strings (lists of Unicode characters); the ASCII
  fragments of Python str.upper, str.lower, str.strip and of the regex
  classes \d and \s are modelled on ASCII characters, which covers every
  keyword and pattern the script uses.
* Python floats produced by float() on a decimal token are modelled as exact
  rationals (the token is a plain decimal literal, so the value is determined
  by the digits).
* Network and filesystem effects are modelled by explicit outcome values
  passed into the functions that perform them; urllib.parse.urljoin is a
  parameter of the functions that call it, and a URL is represented by its
  parsed path where only the path is consumed.
-/

namespace Scrape

/-- Base site URL, the constant BASE of the script. -/
def BASE : String := "https://www.marcosymarcos.mx/"

/-- Image output directory, the constant OUT_DIR of the script. -/
def OUT_DIR : String := "img/molduras"

/-- ASCII decimal digit, the regex class \d restricted to ASCII. -/
def isDig (c : Char) : Bool := ('0' ≤ c) && (c ≤ '9')

/-- ASCII whitespace, the regex class \s and str.strip default set
restricted to ASCII: space, tab, newline, carriage return, vertical tab,
form feed. -/
def isSpc (c : Char) : Bool :=
  (c = ' ') || (c = '\t') || (c = '\n') || (c = '\r') ||
  (c.toNat = 11) || (c.toNat = 12)

/-- Characters kept by the sanitizer regex [^A-Z0-9_-] of clean_id. -/
def validChar (c : Char) : Bool :=
  (('A' ≤ c) && (c ≤ 'Z')) || (('0' ≤ c) && (c ≤ '9')) || (c = '_') || (c = '-')

/-- Python str.strip() on the ASCII whitespace set: drop leading and
trailing whitespace. -/
def stripWs (cs : List Char) : List Char :=
  ((cs.dropWhile isSpc).reverse.dropWhile isSpc).reverse

/-- Python str.strip("/"): drop leading and trailing slashes. -/
def stripSlashes (cs : List Char) : List Char :=
  ((cs.dropWhile (fun c => c = '/')).reverse.dropWhile (fun c => c = '/')).reverse

/-- Python str.split("/") on character lists: always at least one part,
empty parts kept. -/
def splitOnSlash (cs : List Char) : List (List Char) :=
  match cs with
  | [] => [[]]
  | c :: t =>
    let r := splitOnSlash t
    if c = '/' then [] :: r
    else
      match r with
      | [] => [[c]]
      | h :: rt => (c :: h) :: rt

/-- slug_from_url of the script, taking the parsed URL path (the result of
urlparse(url).path): strip slashes, split on "/", take the last segment
(or "producto" when it is empty), uppercase and replace hyphens by
underscores. -/
def slug_from_url (path : String) : String :=
  let parts := splitOnSlash (stripSlashes path.data)
  let lastSeg := parts.getLastD []
  let base := if lastSeg.isEmpty then "producto".data else lastSeg
  String.mk (base.map (fun c => if c = '-' then '_' else c.toUpper))

/-- clean_id of the script: coalesce None to "", strip, uppercase, delete
every character outside [A-Z0-9_-]; return None when nothing remains. -/
def clean_id (text : Option String) : Option String :=
  let s := text.getD ""
  let u := ((stripWs s.data).map Char.toUpper).filter validChar
  if u.isEmpty then none else some (String.mk u)

/-- Digit run to a natural number. -/
def digitsToNat (ds : List Char) : Nat :=
  ds.foldl (fun n c => 10 * n + (c.toNat - 48)) 0

/-- Value of a decimal token (digits, optionally a period and digits), the
exact value float() computes on it. -/
def decToRat (cs : List Char) : ℚ :=
  let intp := cs.takeWhile isDig
  let rest := cs.dropWhile isDig
  match rest with
  | '.' :: fs => (digitsToNat intp : ℚ) + (digitsToNat fs : ℚ) / ((10 : ℚ) ^ fs.length)
  | _ => (digitsToNat intp : ℚ)

/-- The v.replace(",", ".") normalization of the matched token. -/
def normComma (cs : List Char) : List Char :=
  cs.map (fun c => if c = ',' then '.' else c)

/-- One attempt of the regex (\d+(?:[.,]\d+)?)\s*cm (case-insensitive on
cm) anchored at the start of cs; returns the captured group on success.
Greedy digit runs need no backtracking here: shortening a digit run leaves
a digit next, which matches neither [.,], \s nor c. -/
def matchAt (cs : List Char) : Option (List Char) :=
  let ds := cs.takeWhile isDig
  let r1 := cs.dropWhile isDig
  if ds.isEmpty then none
  else
    let gr :=
      match r1 with
      | c :: rest =>
        if c = '.' || c = ',' then
          let fs := rest.takeWhile isDig
          if fs.isEmpty then (ds, r1) else (ds ++ c :: fs, rest.dropWhile isDig)
        else (ds, r1)
      | [] => (ds, r1)
    let r3 := gr.2.dropWhile isSpc
    match r3 with
    | c1 :: c2 :: _ =>
      if ((c1 = 'c') || (c1 = 'C')) && ((c2 = 'm') || (c2 = 'M')) then some gr.1 else none
    | _ => none

/-- re.search for the width pattern: try every start position left to
right, return the first captured group. -/
def searchWidth (cs : List Char) : Option (List Char) :=
  match cs with
  | [] => none
  | _ :: t =>
    match matchAt cs with
    | some g => some g
    | none => searchWidth t

/-- parse_width_cm of the script: None on a falsy title, else search the
width regex, normalize the decimal comma and convert with float(). -/
def parse_width_cm (text : Option String) : Option ℚ :=
  match text with
  | none => none
  | some s =>
    if s.isEmpty then none
    else (searchWidth s.data).map (fun g => decToRat (normComma g))

/-- The keyword→color table mapc of guess_style_and_color, in insertion
order (Python dicts iterate in insertion order). -/
def mapc : List (String × String) :=
  [("negro", "#111111"), ("blanco", "#f5f5f5"), ("nogal", "#6b3f21"),
   ("caoba", "#7a3b1f"), ("chocolate", "#4b2b1a"), ("natural", "#c9b18c"),
   ("maple", "#e0b977"), ("wengue", "#3a2a1a"), ("roble", "#916c44"),
   ("azul", "#1f3a5a"), ("gris", "#777777"), ("plata", "#c0c0c0"),
   ("dorado", "#c7a446"), ("oro", "#c7a446"), ("bronce", "#8c6b3f"),
   ("marfil", "#f0eee6")]

/-- The metallic keyword list of guess_style_and_color. -/
def metalKeys : List String := ["plata", "dorado", "oro", "bronce", "metal"]

/-- Python substring test (k in t) on character lists. -/
def containsSub (needle hay : List Char) : Bool :=
  match hay with
  | [] => needle.isEmpty
  | _ :: t => needle.isPrefixOf hay || containsSub needle t

/-- Python str.lower restricted to ASCII (every keyword is ASCII). -/
def asciiLower (s : String) : String := String.mk (s.data.map Char.toLower)

/-- guess_style_and_color of the script: lowercase the name, pick the color
of the first matching table keyword (default "#555555"), set style "metal"
when a metallic keyword occurs (default "grain"); returns (style, color). -/
def guess_style_and_color (name : Option String) : String × String :=
  let t := (asciiLower (name.getD "")).data
  let color :=
    match mapc.find? (fun kv => containsSub kv.1.data t) with
    | some kv => kv.2
    | none => "#555555"
  let style := if metalKeys.any (fun k => containsSub k.data t) then "metal" else "grain"
  (style, color)

/-- Python truthiness of an optional string: present and non-empty. -/
def truthyStr (o : Option String) : Bool :=
  match o with
  | some s => !s.isEmpty
  | none => false

/-- Python x or y on optional strings: x when truthy, else y. -/
def pyOr (x y : Option String) : Option String :=
  if truthyStr x then x else y

/-- The gallery img element of a product page: its data-large_image and
src attributes (none when the attribute is absent). -/
structure Gallery where
  dataLargeImage : Option String
  src : Option String

/-- Parsed content of a product page, the results of the soup.select_one
queries extract_product performs: title text, SKU element text, og:image
content attribute, gallery img element, wp-post-image src attribute.
An absent element or attribute is none. -/
structure Page where
  titleText : Option String
  skuText : Option String
  ogContent : Option String
  galleryEl : Option Gallery
  wpSrc : Option String

/-- The image-URL selection of extract_product: og:image content, else the
gallery data-large_image or src, else the wp-post-image src, each guarded
by Python truthiness of the attribute (and, after joining, of the chain
variable img_url); join stands for urllib.parse.urljoin. -/
def extract_img_url (join : String → String → String) (p : Page) : Option String :=
  let u1 : Option String :=
    match p.ogContent with
    | some c => if c.isEmpty then none else some (join BASE c)
    | none => none
  let u2 : Option String :=
    if truthyStr u1 then u1
    else
      match p.galleryEl with
      | some g =>
        if truthyStr (pyOr g.dataLargeImage g.src) then
          (pyOr g.dataLargeImage g.src).map (join BASE)
        else none
      | none => none
  if truthyStr u2 then u2
  else
    match p.wpSrc with
    | some s => if s.isEmpty then none else some (join BASE s)
    | none => none

/-- The dict returned by extract_product (img_url still a URL here). -/
structure ExtractData where
  id : Option String
  name : String
  width_cm : Option ℚ
  color : String
  style : String
  img_url : Option String

/-- extract_product of the script, on an already-fetched page: title with
slug fallback, SKU via clean_id with slug fallback, image URL via the
three-step chain, width from the title, style/color heuristics.
urlPath is urlparse(url).path of the product URL. -/
def extract_product (join : String → String → String) (urlPath : String)
    (p : Page) : ExtractData :=
  let title :=
    match p.titleText with
    | some t => t
    | none => slug_from_url urlPath
  let sku0 := clean_id p.skuText
  let sku :=
    match sku0 with
    | some s => some s
    | none => clean_id (some (slug_from_url urlPath))
  let wcm := parse_width_cm (some title)
  let sc := guess_style_and_color (some title)
  { id := sku, name := title, width_cm := wcm,
    color := sc.2, style := sc.1, img_url := extract_img_url join p }

/-- Outcome of the requests.get call in download_image: success, an HTTP
error status (raise_for_status raises), or a raised network exception. -/
inductive FetchOutcome where
  | ok : FetchOutcome
  | httpErr : FetchOutcome
  | exc : FetchOutcome
deriving DecidableEq

/-- Outcome of opening and writing the image file. -/
inductive WriteOutcome where
  | ok : WriteOutcome
  | exc : WriteOutcome
deriving DecidableEq

/-- download_image of the script: false on a falsy URL before any network
activity; otherwise fetch and write, catching every exception locally and
returning false for it; true only when fetch and write both succeed. -/
def download_image (url : Option String) (f : FetchOutcome) (w : WriteOutcome) : Bool :=
  match url with
  | none => false
  | some u =>
    if u.isEmpty then false
    else
      match f with
      | .ok => (match w with | .ok => true | .exc => false)
      | .httpErr => false
      | .exc => false

/-- The record main stores in products and serializes. -/
structure Rec where
  id : String
  name : String
  width_cm : Option ℚ
  color : String
  style : String
  img : Option String
deriving DecidableEq, Repr

/-- One product URL processed by main's inner loop: either extract_product
raised (the except branch logs and skips), or it returned a page, together
with the outcomes of the image fetch and file write for this product. -/
inductive Item where
  | err : Item
  | ok (urlPath : String) (page : Page) (f : FetchOutcome) (w : WriteOutcome) : Item

/-- The record main builds for a product with identifier pid: id, the
extracted fields, and img set to the image path only when download_image
succeeded (os.path.join with "/" and the backslash replace is the identity
on these POSIX paths). -/
def mkRec (join : String → String → String) (urlPath : String) (p : Page)
    (f : FetchOutcome) (w : WriteOutcome) (pid : String) : Rec :=
  let data := extract_product join urlPath p
  let imgPath := OUT_DIR ++ "/" ++ pid ++ ".jpg"
  let ok := download_image data.img_url f w
  { id := pid, name := data.name, width_cm := data.width_cm,
    color := data.color, style := data.style,
    img := if ok then some imgPath else none }

/-- One iteration of main's inner loop over the insertion-ordered products
mapping (modelled as the list of its records in insertion order): skip on
an extraction exception, on a falsy id, and on a duplicate id; otherwise
download the image and insert the new record at the end. -/
def processItem (join : String → String → String) (products : List Rec)
    (it : Item) : List Rec :=
  match it with
  | .err => products
  | .ok urlPath page f w =>
    match (extract_product join urlPath page).id with
    | none => products
    | some pid =>
      if products.any (fun r => r.id = pid) then products
      else products ++ [mkRec join urlPath page f w pid]

/-- main's aggregation starting from an existing products mapping. -/
def runFrom (join : String → String → String) (products : List Rec)
    (items : List Item) : List Rec :=
  items.foldl (processItem join) products

/-- main's aggregation over all product URLs of all categories, in crawl
order, producing list(products.values()) that is serialized. -/
def mainRun (join : String → String → String) (items : List Item) : List Rec :=
  runFrom join [] items

/-- A JSON value as json.dump sees the record fields. -/
inductive JVal where
  | null : JVal
  | jstr (s : String) : JVal
  | jnum (q : ℚ) : JVal
deriving DecidableEq, Repr

/-- The JSON object serialized for one record: the dict literal of main, in
key insertion order; None becomes null. -/
def recToJson (r : Rec) : List (String × JVal) :=
  [("id", JVal.jstr r.id), ("name", JVal.jstr r.name),
   ("width_cm", match r.width_cm with | some q => JVal.jnum q | none => JVal.null),
   ("color", JVal.jstr r.color), ("style", JVal.jstr r.style),
   ("img", match r.img with | some s => JVal.jstr s | none => JVal.null)]

/-- An optional attribute value kept only when non-empty (spec's notion of
"yields a value"). -/
def pick (o : Option String) : Option String :=
  if truthyStr o then o else none

/-- Spec-side reading of the gallery source: the large-image attribute
when non-empty, else the src attribute when non-empty. -/
def galSpec (g : Gallery) : Option String :=
  match pick g.dataLargeImage with
  | some u => some u
  | none => pick g.src

/-- Spec-side reading of the image rule, named after the spec's words: try,
in order, the og:image content, the gallery large-image or src, the
featured-image src; first non-empty wins, else none. -/
def imgUrlSpec (p : Page) : Option String :=
  match pick p.ogContent with
  | some u => some u
  | none =>
    match (match p.galleryEl with
           | some g => galSpec g
           | none => none) with
    | some u => some u
    | none => pick p.wpSrc

/-- The identity-on-reference join used to instantiate urljoin in
witnesses. -/
def join0 : String → String → String := fun _ u => u

/-- Concrete page fixture: black frame with SKU SKU-1 and an og image. -/
def pageA : Page :=
  Page.mk (some "Marco Negro 3 cm") (some "SKU-1") (some "a.jpg") none none

/-- Concrete page fixture: white frame whose SKU also sanitizes to SKU-1. -/
def pageB : Page :=
  Page.mk (some "Marco Blanco 4 cm") (some "sku-1 ") (some "b.jpg") none none

/-- Crawl item fixture for pageA. -/
def itemA : Item :=
  Item.ok "producto/marco-negro" pageA FetchOutcome.ok WriteOutcome.ok

/-- Crawl item fixture for pageB, colliding with itemA's identifier. -/
def itemB : Item :=
  Item.ok "producto/marco-blanco" pageB FetchOutcome.ok WriteOutcome.ok

end Scrape

namespace Scrape

/-- Computation rule: a missing optional string is falsy. -/
theorem truthyStr_none : truthyStr none = false := rfl

/-- Computation rule: a present optional string is truthy when non-empty. -/
theorem truthyStr_some (s : String) : truthyStr (some s) = !s.isEmpty := rfl

/-- C7: download_image never propagates an exception: a null URL fails
immediately and independently of the network and filesystem oracles, a
non-ok fetch outcome (HTTP error status or raised exception) yields false,
and a write exception yields false. -/
theorem download_image_never_raises :
    (∀ f w, download_image none f w = false) ∧
    (∀ f w fp wp, download_image none f w = download_image none fp wp) ∧
    (∀ u f w, f ≠ FetchOutcome.ok → download_image u f w = false) ∧
    (∀ u f, download_image u f WriteOutcome.exc = false) := by
  refine ⟨fun f w => rfl, fun f w fp wp => rfl, ?_, ?_⟩
  · intro u f w hf
    cases u with
    | none => rfl
    | some s =>
      cases f with
      | ok => exact absurd rfl hf
      | httpErr => simp [download_image]
      | exc => simp [download_image]
  · intro u f
    cases u with
    | none => rfl
    | some s =>
      cases f <;> simp [download_image]

/-- Witness for C7 at a concrete URL and a concrete HTTP error. -/
theorem download_image_never_raises_witness :
    FetchOutcome.httpErr ≠ FetchOutcome.ok ∧
    download_image (some "http://x/a.jpg") FetchOutcome.httpErr WriteOutcome.ok = false :=
  ⟨by decide,
   download_image_never_raises.2.2.1 (some "http://x/a.jpg")
     FetchOutcome.httpErr WriteOutcome.ok (by decide)⟩

/-- C8: the title "Marco Plata Metálico 5 cm" parses to width 5, color
"#c0c0c0" (plata) and style "metal" (metallic keyword plata), both for the
helpers and through extract_product. -/
theorem plata_metalico_scenario :
    parse_width_cm (some "Marco Plata Metálico 5 cm") = some 5 ∧
    guess_style_and_color (some "Marco Plata Metálico 5 cm") = ("metal", "#c0c0c0") ∧
    (extract_product join0 "producto/marco-plata"
       (Page.mk (some "Marco Plata Metálico 5 cm") (some "MP5") none none none)).width_cm
      = some 5 ∧
    (extract_product join0 "producto/marco-plata"
       (Page.mk (some "Marco Plata Metálico 5 cm") (some "MP5") none none none)).color
      = "#c0c0c0" ∧
    (extract_product join0 "producto/marco-plata"
       (Page.mk (some "Marco Plata Metálico 5 cm") (some "MP5") none none none)).style
      = "metal" := by
  refine ⟨by decide, by decide, by decide, by decide, by decide⟩

/-- C1: assuming urljoin keeps non-empty references non-empty (true of
urllib.parse.urljoin on this base), extract_product's image selection
equals the spec's rule: og:image content, else gallery large-image or src,
else featured-image src, first non-empty attribute wins, null when none
yields a value. -/
theorem extract_img_url_fallback_order :
    ∀ (join : String → String → String) (p : Page),
      (∀ s : String, s.isEmpty = false → (join BASE s).isEmpty = false) →
      extract_img_url join p = (imgUrlSpec p).map (join BASE) := by
  intro join p hj
  obtain ⟨tt, st, og, gal, wp⟩ := p
  rcases og with _ | c <;>
    rcases gal with _ | ⟨dl, src⟩ <;>
    rcases wp with _ | w <;>
    (try cases hc : c.isEmpty) <;>
    (try rcases dl with _ | d) <;>
    (try cases hd : d.isEmpty) <;>
    (try rcases src with _ | sr) <;>
    (try cases hsr : sr.isEmpty) <;>
    (try cases hw : w.isEmpty) <;>
    simp_all [extract_img_url, imgUrlSpec, galSpec, pick, pyOr,
      truthyStr_none, truthyStr_some]

/-- Witness for C1: empty og:image content is skipped, the gallery src is
chosen over the featured image. -/
theorem extract_img_url_fallback_order_witness :
    extract_img_url join0
      (Page.mk (some "T") none (some "") (some (Gallery.mk none (some "gal.jpg")))
        (some "wp.jpg"))
      = some "gal.jpg" := by
  rw [extract_img_url_fallback_order join0 _ (fun s hs => hs)]
  decide

/-- The regex engine finds no match iff no start position matches. -/
theorem searchWidth_eq_none_iff (cs : List Char) :
    searchWidth cs = none ↔ ∀ i, matchAt (cs.drop i) = none := by
  induction cs with
  | nil =>
    simp only [searchWidth, List.drop_nil, true_iff]
    intro i
    rfl
  | cons c t ih =>
    cases hm : matchAt (c :: t) with
    | some g =>
      simp only [searchWidth, hm]
      constructor
      · intro h
        exact absurd h (by simp)
      · intro h
        have h0 := h 0
        rw [List.drop_zero, hm] at h0
        exact absurd h0 (by simp)
    | none =>
      simp only [searchWidth, hm]
      rw [ih]
      constructor
      · intro h i
        cases i with
        | zero => simpa using hm
        | succ j => simpa using h j
      · intro h i
        simpa using h (i + 1)

/-- The regex engine returns the leftmost match: if position i matches and
every earlier position fails, the search result is the group at i. -/
theorem searchWidth_leftmost (cs : List Char) (i : Nat) (g : List Char) :
    matchAt (cs.drop i) = some g → (∀ j, j < i → matchAt (cs.drop j) = none) →
    searchWidth cs = some g := by
  induction cs generalizing i with
  | nil =>
    intro hm _
    rw [List.drop_nil] at hm
    exact absurd hm (by simp [matchAt])
  | cons c t ih =>
    intro hm hlt
    cases i with
    | zero =>
      rw [List.drop_zero] at hm
      simp [searchWidth, hm]
    | succ j =>
      have h0 : matchAt (c :: t) = none := by simpa using hlt 0 (Nat.succ_pos j)
      rw [List.drop_succ_cons] at hm
      simp only [searchWidth, h0]
      exact ih j hm (fun k hk => by simpa using hlt (k + 1) (Nat.succ_lt_succ hk))

/-- C2: parse_width_cm is null on a null or empty title; it is null exactly
when no position of the title starts a numeric-token-then-cm match; and
when position i carries the first match with captured token g, it returns
the value of g with the decimal comma normalized to a period. -/
theorem parse_width_cm_spec :
    parse_width_cm none = none ∧
    parse_width_cm (some "") = none ∧
    ∀ s : String,
      ((∀ i, matchAt (s.data.drop i) = none) → parse_width_cm (some s) = none) ∧
      (∀ i g, matchAt (s.data.drop i) = some g →
        (∀ j, j < i → matchAt (s.data.drop j) = none) →
        parse_width_cm (some s) = some (decToRat (normComma g))) := by
  refine ⟨rfl, rfl, fun s => ⟨?_, ?_⟩⟩
  · intro h
    cases he : s.isEmpty with
    | true => simp [parse_width_cm, he]
    | false =>
      have hn : searchWidth s.data = none := (searchWidth_eq_none_iff s.data).mpr h
      simp [parse_width_cm, he, hn]
  · intro i g hm hlt
    have hs : searchWidth s.data = some g := searchWidth_leftmost s.data i g hm hlt
    cases he : s.isEmpty with
    | true =>
      exfalso
      have hdata : s = "" := (String.isEmpty_iff s).mp he
      rw [hdata] at hs
      exact absurd hs (by simp [searchWidth, String.data])
    | false => simp [parse_width_cm, he, hs]

/-- Witness for C2: in "ab 3,5 cm x" the first match is at position 3 with
token "3,5", so the parsed width is 3.5. -/
theorem parse_width_cm_spec_witness :
    parse_width_cm (some "ab 3,5 cm x") = some (decToRat (normComma ['3', ',', '5'])) :=
  (parse_width_cm_spec.2.2 "ab 3,5 cm x").2 3 ['3', ',', '5'] (by decide)
    (by decide)

/-- C3: clean_id strips, uppercases and deletes every character outside
[A-Z0-9_-]; a successful result is non-empty and drawn from that set, an
all-invalid input yields null, and a null sanitized SKU makes
extract_product fall back to the sanitized URL slug. -/
theorem clean_id_spec :
    (∀ s t, clean_id (some s) = some t →
      t.data = ((stripWs s.data).map Char.toUpper).filter validChar ∧
      t ≠ "" ∧ ∀ c ∈ t.data, validChar c = true) ∧
    (∀ s : String,
      (∀ c ∈ (stripWs s.data).map Char.toUpper, validChar c = false) →
      clean_id (some s) = none) ∧
    (∀ (join : String → String → String) (path : String) (p : Page),
      clean_id p.skuText = none →
      (extract_product join path p).id = clean_id (some (slug_from_url path))) := by
  refine ⟨?_, ?_, ?_⟩
  · intro s t h
    unfold clean_id at h
    simp only [Option.getD] at h
    cases hu : (((stripWs s.data).map Char.toUpper).filter validChar).isEmpty with
    | true => rw [if_pos hu] at h; exact absurd h (by simp)
    | false =>
      rw [if_neg (by simp [hu])] at h
      have ht : t = String.mk (((stripWs s.data).map Char.toUpper).filter validChar) :=
        (Option.some_injective _ h).symm
      subst ht
      refine ⟨rfl, ?_, ?_⟩
      · intro hcon
        have : (((stripWs s.data).map Char.toUpper).filter validChar) = [] := by
          have := congrArg String.data hcon
          simpa using this
        rw [this] at hu
        simp at hu
      · intro c hc
        exact (List.mem_filter.mp hc).2
  · intro s hall
    unfold clean_id
    simp only [Option.getD]
    have : (((stripWs s.data).map Char.toUpper).filter validChar) = [] := by
      apply List.filter_eq_nil_iff.mpr
      intro a ha
      simp [hall a ha]
    rw [this]
    simp
  · intro join path p h
    simp [extract_product, h]

/-- Witness for C3: a valid SKU sanitizes to a non-empty cleaned id, an
all-invalid one to null, and the null case falls back to the URL slug. -/
theorem clean_id_spec_witness :
    ("MOL-12" : String) ≠ "" ∧
    clean_id (some " ñ ") = none ∧
    (extract_product join0 "producto/abc-1"
        (Page.mk (some "T") (some " ñ ") none none none)).id
      = clean_id (some (slug_from_url "producto/abc-1")) :=
  ⟨(clean_id_spec.1 " mol-1ñ2 " "MOL-12" (by decide)).2.1,
   clean_id_spec.2.1 " ñ " (by decide),
   clean_id_spec.2.2 join0 "producto/abc-1"
     (Page.mk (some "T") (some " ñ ") none none none) (by decide)⟩

/-- find? returns the head of the suffix when nothing before it satisfies
the predicate. -/
theorem find_first_after_failures {α : Type} (p : α → Bool) :
    ∀ (pre : List α) (a : α) (post : List α),
      (∀ x ∈ pre, p x = false) → p a = true →
      (pre ++ a :: post).find? p = some a := by
  intro pre
  induction pre with
  | nil =>
    intro a post _ ha
    simpa using List.find?_cons_of_pos post ha
  | cons x xs ih =>
    intro a post hpre ha
    have hx : p x = false := hpre x (List.mem_cons_self x xs)
    rw [List.cons_append, List.find?_cons_of_neg _ (by simp [hx])]
    exact ih a post (fun y hy => hpre y (List.mem_cons_of_mem x hy)) ha

/-- C4: the color is the hex value paired with the first table keyword (in
mapc order) occurring in the lowercased name, and the neutral gray default
when no keyword occurs. -/
theorem guess_color_first_keyword :
    ∀ name : String,
      (∀ (pre : List (String × String)) (k v : String) (post : List (String × String)),
        mapc = pre ++ (k, v) :: post →
        (∀ kv ∈ pre, containsSub kv.1.data (asciiLower name).data = false) →
        containsSub k.data (asciiLower name).data = true →
        (guess_style_and_color (some name)).2 = v) ∧
      ((∀ kv ∈ mapc, containsSub kv.1.data (asciiLower name).data = false) →
        (guess_style_and_color (some name)).2 = "#555555") := by
  intro name
  constructor
  · intro pre k v post hmap hpre hk
    have hfind : mapc.find? (fun kv => containsSub kv.1.data (asciiLower name).data)
        = some (k, v) := by
      rw [hmap]
      exact find_first_after_failures _ pre (k, v) post hpre (by simpa using hk)
    simp [guess_style_and_color, hfind]
  · intro hall
    have hfind : mapc.find? (fun kv => containsSub kv.1.data (asciiLower name).data)
        = none := by
      apply List.find?_eq_none.mpr
      intro x hx
      simp [hall x hx]
    simp [guess_style_and_color, hfind]

/-- Witness for C4: in "Plata Nogal" both nogal and plata occur; nogal is
earlier in the table, so its brown wins over plata's silver. -/
theorem guess_color_first_keyword_witness :
    (guess_style_and_color (some "Plata Nogal")).2 = "#6b3f21" :=
  (guess_color_first_keyword "Plata Nogal").1
    [("negro", "#111111"), ("blanco", "#f5f5f5")] "nogal" "#6b3f21"
    [("caoba", "#7a3b1f"), ("chocolate", "#4b2b1a"), ("natural", "#c9b18c"),
     ("maple", "#e0b977"), ("wengue", "#3a2a1a"), ("roble", "#916c44"),
     ("azul", "#1f3a5a"), ("gris", "#777777"), ("plata", "#c0c0c0"),
     ("dorado", "#c7a446"), ("oro", "#c7a446"), ("bronce", "#8c6b3f"),
     ("marfil", "#f0eee6")]
    rfl (by decide) (by decide)

/-- The record main builds keeps the identifier it was keyed with. -/
theorem mkRec_id (join : String → String → String) (urlPath : String) (p : Page)
    (f : FetchOutcome) (w : WriteOutcome) (pid : String) :
    (mkRec join urlPath p f w pid).id = pid := rfl

/-- Each loop iteration either leaves products unchanged (exception, falsy
id, duplicate id) or appends exactly one record with a fresh id. -/
theorem processItem_cases (join : String → String → String) (acc : List Rec)
    (it : Item) :
    processItem join acc it = acc ∨
    ∃ urlPath page f w pid,
      it = Item.ok urlPath page f w ∧
      (extract_product join urlPath page).id = some pid ∧
      acc.any (fun r => r.id = pid) = false ∧
      processItem join acc it = acc ++ [mkRec join urlPath page f w pid] := by
  cases it with
  | err => exact Or.inl rfl
  | ok urlPath page f w =>
    cases hid : (extract_product join urlPath page).id with
    | none => exact Or.inl (by simp [processItem, hid])
    | some pid =>
      cases hdup : acc.any (fun r => r.id = pid) with
      | true => exact Or.inl (by simp [processItem, hid, hdup])
      | false =>
        exact Or.inr ⟨urlPath, page, f, w, pid, rfl, hid, hdup,
          by simp [processItem, hid, hdup]⟩

/-- A failed duplicate check means every stored record has another id. -/
theorem any_id_false {acc : List Rec} {pid : String}
    (h : acc.any (fun r => r.id = pid) = false) :
    ∀ rp ∈ acc, rp.id ≠ pid := by
  intro rp hrp heq
  have htrue : acc.any (fun r => r.id = pid) = true :=
    List.any_eq_true.mpr ⟨rp, hrp, by simp [heq]⟩
  rw [h] at htrue
  cases htrue

/-- Running the loop only appends records, and every appended record's id
differs from every id already stored. -/
theorem runFrom_ext (join : String → String → String) :
    ∀ (items : List Item) (acc : List Rec),
      ∃ ext, runFrom join acc items = acc ++ ext ∧
        ∀ r ∈ ext, ∀ rp ∈ acc, r.id ≠ rp.id := by
  intro items
  induction items with
  | nil => exact fun acc => ⟨[], by simp [runFrom], by simp⟩
  | cons it rest ih =>
    intro acc
    have hstep : runFrom join acc (it :: rest)
        = runFrom join (processItem join acc it) rest := rfl
    rcases processItem_cases join acc it with h | ⟨u, pg, f, w, pid, _, _, hdup, h⟩
    · rw [hstep, h]
      exact ih acc
    · rw [hstep, h]
      obtain ⟨ext, hext, hfresh⟩ := ih (acc ++ [mkRec join u pg f w pid])
      refine ⟨mkRec join u pg f w pid :: ext, ?_, ?_⟩
      · rw [hext]
        simp
      · intro r hr rp hrp
        rcases List.mem_cons.mp hr with hhead | htail
        · rw [hhead, mkRec_id]
          exact fun heq => any_id_false hdup rp hrp heq.symm
        · exact hfresh r htail rp (List.mem_append_left _ hrp)

/-- Running the loop preserves distinctness of the stored ids. -/
theorem runFrom_nodup (join : String → String → String) :
    ∀ (items : List Item) (acc : List Rec),
      (acc.map Rec.id).Nodup → ((runFrom join acc items).map Rec.id).Nodup := by
  intro items
  induction items with
  | nil =>
    intro acc h
    simpa [runFrom] using h
  | cons it rest ih =>
    intro acc h
    have hstep : runFrom join acc (it :: rest)
        = runFrom join (processItem join acc it) rest := rfl
    rw [hstep]
    rcases processItem_cases join acc it with heq | ⟨u, pg, f, w, pid, _, _, hdup, heq⟩
    · rw [heq]
      exact ih acc h
    · rw [heq]
      apply ih
      rw [List.map_append, List.nodup_append]
      refine ⟨h, by simp, ?_⟩
      intro a ha hb
      simp only [List.map_cons, List.map_nil, mkRec_id, List.mem_singleton] at hb
      obtain ⟨rp, hrp, hrpid⟩ := List.mem_map.mp ha
      exact any_id_false hdup rp hrp (by rw [hrpid, hb])

/-- C5: the output ids are pairwise distinct, and extending the crawl only
appends records whose id differs from every id already produced: the
first-encountered record for an id wins and later duplicates are dropped,
whatever URL they came from. -/
theorem mainRun_first_write_wins :
    ∀ (join : String → String → String) (pre post : List Item),
      ((mainRun join (pre ++ post)).map Rec.id).Nodup ∧
      ∃ ext, mainRun join (pre ++ post) = mainRun join pre ++ ext ∧
        ∀ r ∈ ext, ∀ rp ∈ mainRun join pre, r.id ≠ rp.id := by
  intro join pre post
  constructor
  · exact runFrom_nodup join (pre ++ post) [] (by simp)
  · have hsplit : mainRun join (pre ++ post) = runFrom join (mainRun join pre) post := by
      unfold mainRun runFrom
      rw [List.foldl_append]
    rw [hsplit]
    exact runFrom_ext join post (mainRun join pre)

/-- Witness for C5: two items whose SKUs sanitize to the same id SKU-1. -/
theorem mainRun_first_write_wins_witness :
    ((mainRun join0 ([itemA] ++ [itemB])).map Rec.id).Nodup ∧
    ∃ ext, mainRun join0 ([itemA] ++ [itemB]) = mainRun join0 [itemA] ++ ext ∧
      ∀ r ∈ ext, ∀ rp ∈ mainRun join0 [itemA], r.id ≠ rp.id :=
  mainRun_first_write_wins join0 [itemA] [itemB]

/-- C6: when a product with a fresh identifier is processed, its record is
appended with img present exactly when download_image succeeded; on
download failure the record still appears with img null and all other
fields taken from the extraction, and the loop goes on to the remaining
items. -/
theorem record_on_download_failure :
    ∀ (join : String → String → String) (acc : List Rec) (urlPath : String)
      (page : Page) (f : FetchOutcome) (w : WriteOutcome) (pid : String) (r : Rec),
      (extract_product join urlPath page).id = some pid →
      acc.any (fun x => x.id = pid) = false →
      r = mkRec join urlPath page f w pid →
      (processItem join acc (Item.ok urlPath page f w) = acc ++ [r] ∧
       r.img.isSome = download_image (extract_product join urlPath page).img_url f w ∧
       (download_image (extract_product join urlPath page).img_url f w = false →
         r.img = none) ∧
       r.id = pid ∧
       r.name = (extract_product join urlPath page).name ∧
       r.width_cm = (extract_product join urlPath page).width_cm ∧
       r.color = (extract_product join urlPath page).color ∧
       r.style = (extract_product join urlPath page).style ∧
       ∀ rest, runFrom join acc (Item.ok urlPath page f w :: rest)
         = runFrom join (acc ++ [r]) rest) := by
  intro join acc urlPath page f w pid r hid hdup hr
  subst hr
  have hproc : processItem join acc (Item.ok urlPath page f w)
      = acc ++ [mkRec join urlPath page f w pid] := by
    simp [processItem, hid, hdup]
  refine ⟨hproc, ?_, ?_, rfl, rfl, rfl, rfl, rfl, ?_⟩
  · cases hdl : download_image (extract_product join urlPath page).img_url f w with
    | true => simp [mkRec, hdl]
    | false => simp [mkRec, hdl]
  · intro hfail
    simp [mkRec, hfail]
  · intro rest
    have : runFrom join acc (Item.ok urlPath page f w :: rest)
        = runFrom join (processItem join acc (Item.ok urlPath page f w)) rest := rfl
    rw [this, hproc]

/-- Witness for C6: a network exception while fetching pageA's image gives
a record with img null and the other fields intact. -/
theorem record_on_download_failure_witness :
    (processItem join0 [] (Item.ok "producto/marco-negro" pageA FetchOutcome.exc WriteOutcome.ok)
        = [] ++ [mkRec join0 "producto/marco-negro" pageA FetchOutcome.exc WriteOutcome.ok "SKU-1"] ∧
     (mkRec join0 "producto/marco-negro" pageA FetchOutcome.exc WriteOutcome.ok "SKU-1").img.isSome
        = download_image (extract_product join0 "producto/marco-negro" pageA).img_url
            FetchOutcome.exc WriteOutcome.ok ∧
     (download_image (extract_product join0 "producto/marco-negro" pageA).img_url
         FetchOutcome.exc WriteOutcome.ok = false →
       (mkRec join0 "producto/marco-negro" pageA FetchOutcome.exc WriteOutcome.ok "SKU-1").img = none) ∧
     (mkRec join0 "producto/marco-negro" pageA FetchOutcome.exc WriteOutcome.ok "SKU-1").id = "SKU-1" ∧
     (mkRec join0 "producto/marco-negro" pageA FetchOutcome.exc WriteOutcome.ok "SKU-1").name
        = (extract_product join0 "producto/marco-negro" pageA).name ∧
     (mkRec join0 "producto/marco-negro" pageA FetchOutcome.exc WriteOutcome.ok "SKU-1").width_cm
        = (extract_product join0 "producto/marco-negro" pageA).width_cm ∧
     (mkRec join0 "producto/marco-negro" pageA FetchOutcome.exc WriteOutcome.ok "SKU-1").color
        = (extract_product join0 "producto/marco-negro" pageA).color ∧
     (mkRec join0 "producto/marco-negro" pageA FetchOutcome.exc WriteOutcome.ok "SKU-1").style
        = (extract_product join0 "producto/marco-negro" pageA).style ∧
     ∀ rest, runFrom join0 [] (Item.ok "producto/marco-negro" pageA FetchOutcome.exc WriteOutcome.ok :: rest)
       = runFrom join0 ([] ++ [mkRec join0 "producto/marco-negro" pageA FetchOutcome.exc WriteOutcome.ok "SKU-1"]) rest) :=
  record_on_download_failure join0 [] "producto/marco-negro" pageA
    FetchOutcome.exc WriteOutcome.ok "SKU-1"
    (mkRec join0 "producto/marco-negro" pageA FetchOutcome.exc WriteOutcome.ok "SKU-1")
    (by decide) (by decide) rfl

/-- C9 as stated is false: a product whose title carries no width yields an
output object whose width_cm key is null. -/
theorem output_width_cm_null_counterexample :
    (mainRun join0
        [Item.ok "producto/moldura-x"
          (Page.mk (some "Moldura X") (some "MX1") none none none)
          FetchOutcome.ok WriteOutcome.ok]).map
      (fun r => (recToJson r).lookup "width_cm") = [some JVal.null] := by
  decide

/-- C9 amended: every serialized object has exactly the keys id, name,
width_cm, color, style, img in this order, and the id, name, color and
style values are never null (width_cm and img may be). -/
theorem output_json_keys :
    ∀ (join : String → String → String) (items : List Item) (r : Rec),
      r ∈ mainRun join items →
      ((recToJson r).map Prod.fst = ["id", "name", "width_cm", "color", "style", "img"] ∧
       (recToJson r).lookup "id" ≠ some JVal.null ∧
       (recToJson r).lookup "name" ≠ some JVal.null ∧
       (recToJson r).lookup "color" ≠ some JVal.null ∧
       (recToJson r).lookup "style" ≠ some JVal.null) := by
  intro join items r _
  refine ⟨rfl, ?_, ?_, ?_, ?_⟩ <;> simp [recToJson, List.lookup]

/-- Witness for C9's amended statement on a concrete one-item run. -/
theorem output_json_keys_witness :
    ((recToJson (mkRec join0 "producto/marco-negro" pageA FetchOutcome.ok WriteOutcome.ok "SKU-1")).map Prod.fst
        = ["id", "name", "width_cm", "color", "style", "img"] ∧
     (recToJson (mkRec join0 "producto/marco-negro" pageA FetchOutcome.ok WriteOutcome.ok "SKU-1")).lookup "id"
        ≠ some JVal.null ∧
     (recToJson (mkRec join0 "producto/marco-negro" pageA FetchOutcome.ok WriteOutcome.ok "SKU-1")).lookup "name"
        ≠ some JVal.null ∧
     (recToJson (mkRec join0 "producto/marco-negro" pageA FetchOutcome.ok WriteOutcome.ok "SKU-1")).lookup "color"
        ≠ some JVal.null ∧
     (recToJson (mkRec join0 "producto/marco-negro" pageA FetchOutcome.ok WriteOutcome.ok "SKU-1")).lookup "style"
        ≠ some JVal.null) :=
  output_json_keys join0 [itemA]
    (mkRec join0 "producto/marco-negro" pageA FetchOutcome.ok WriteOutcome.ok "SKU-1")
    (by decide)

/-- A successful clean_id is non-empty and drawn from [A-Z0-9_-]. -/
theorem clean_id_sound :
    ∀ (o : Option String) (t : String), clean_id o = some t →
      t ≠ "" ∧ ∀ c ∈ t.data, validChar c = true := by
  intro o t h
  unfold clean_id at h
  cases hu : (((stripWs (o.getD "").data).map Char.toUpper).filter validChar).isEmpty with
  | true =>
    rw [if_pos hu] at h
    exact absurd h (by simp)
  | false =>
    rw [if_neg (by simp [hu])] at h
    have ht : t = String.mk (((stripWs (o.getD "").data).map Char.toUpper).filter validChar) :=
      (Option.some_injective _ h).symm
    subst ht
    constructor
    · intro hcon
      have hnil : (((stripWs (o.getD "").data).map Char.toUpper).filter validChar) = [] := by
        have := congrArg String.data hcon
        simpa using this
      rw [hnil] at hu
      simp at hu
    · intro c hc
      exact (List.mem_filter.mp hc).2

/-- An identifier produced by extract_product comes from clean_id, hence is
non-empty and sanitized. -/
theorem extract_id_sound :
    ∀ (join : String → String → String) (urlPath : String) (page : Page) (pid : String),
      (extract_product join urlPath page).id = some pid →
      pid ≠ "" ∧ ∀ c ∈ pid.data, validChar c = true := by
  intro join urlPath page pid h
  simp only [extract_product] at h
  cases hs : clean_id page.skuText with
  | some s =>
    rw [hs] at h
    have : s = pid := by simpa using h
    subst this
    exact clean_id_sound _ _ hs
  | none =>
    rw [hs] at h
    exact clean_id_sound _ _ h

/-- The id invariant is preserved by running the loop. -/
theorem runFrom_ids_sound (join : String → String → String) :
    ∀ (items : List Item) (acc : List Rec),
      (∀ r ∈ acc, r.id ≠ "" ∧ ∀ c ∈ r.id.data, validChar c = true) →
      ∀ r ∈ runFrom join acc items, r.id ≠ "" ∧ ∀ c ∈ r.id.data, validChar c = true := by
  intro items
  induction items with
  | nil =>
    intro acc h
    simpa [runFrom] using h
  | cons it rest ih =>
    intro acc h
    rw [show runFrom join acc (it :: rest)
        = runFrom join (processItem join acc it) rest from rfl]
    apply ih
    intro r hr
    rcases processItem_cases join acc it with heq | ⟨u, pg, f, w, pid, _, hid, _, heq⟩
    · rw [heq] at hr
      exact h r hr
    · rw [heq] at hr
      rcases List.mem_append.mp hr with hin | hin
      · exact h r hin
      · have hrr : r = mkRec join u pg f w pid := by simpa using hin
        rw [hrr, mkRec_id]
        exact extract_id_sound join u pg pid hid

/-- C10: every output record's id is non-empty and made of characters from
[A-Z0-9_-], and a product whose sanitized SKU and sanitized slug are both
null is skipped entirely. -/
theorem output_ids_sanitized :
    ∀ (join : String → String → String) (items : List Item),
      (∀ r ∈ mainRun join items, r.id ≠ "" ∧ ∀ c ∈ r.id.data, validChar c = true) ∧
      (∀ (acc : List Rec) (urlPath : String) (page : Page) (f : FetchOutcome)
          (w : WriteOutcome),
        clean_id page.skuText = none →
        clean_id (some (slug_from_url urlPath)) = none →
        processItem join acc (Item.ok urlPath page f w) = acc) := by
  intro join items
  constructor
  · exact runFrom_ids_sound join items [] (by simp)
  · intro acc urlPath page f w h1 h2
    have hid : (extract_product join urlPath page).id = none := by
      simp [extract_product, h1, h2]
    simp [processItem, hid]

/-- Witness for C10: the one-item run yields the sanitized id SKU-1, and a
page with an all-invalid SKU and an all-invalid slug is skipped. -/
theorem output_ids_sanitized_witness :
    ((mkRec join0 "producto/marco-negro" pageA FetchOutcome.ok WriteOutcome.ok "SKU-1").id ≠ "" ∧
     ∀ c ∈ (mkRec join0 "producto/marco-negro" pageA FetchOutcome.ok WriteOutcome.ok "SKU-1").id.data,
       validChar c = true) ∧
    processItem join0 []
        (Item.ok "producto/ñ" (Page.mk (some "T") (some "!!!") none none none)
          FetchOutcome.ok WriteOutcome.ok)
      = [] :=
  ⟨(output_ids_sanitized join0 [itemA]).1
     (mkRec join0 "producto/marco-negro" pageA FetchOutcome.ok WriteOutcome.ok "SKU-1")
     (by decide),
   (output_ids_sanitized join0 []).2 [] "producto/ñ"
     (Page.mk (some "T") (some "!!!") none none none)
     FetchOutcome.ok WriteOutcome.ok (by decide) (by decide)⟩

end Scrape
